import Mathlib

/-!
Verification of the core transaction builder of `src/tx.py` (class
`Transaction`): the raw-transaction encoder, the signature-hash
construction, the canonical signer loop, and the message-envelope
checksum.

The Python code manipulates hexadecimal strings throughout; every hex
string in the pipeline is a valid even-length hex rendering of a byte
sequence, so the embedding works at the byte level: a hex string is
represented by the list of bytes it denotes (each byte a `Nat < 256`),
and string concatenation becomes list append.  The one place where the
string-ness itself matters — `makeSignedTx` hashes the UTF-8 encoding of
the hex TEXT, not the bytes it denotes — is modelled explicitly via
`asciiHex`, which maps a byte list to the ASCII code points of its hex
rendering.

Helpers imported from `utils.py` and `wallet.py` are not part of
`src/`; they are modelled from the spec, each marked
`Modelled from the spec:` in its doc comment.
-/

set_option maxRecDepth 100000

namespace BtcTx

/-- A byte: we use `Nat` and keep values below 256 by construction
(`% 256` wherever a value is split into bytes). -/
abbrev Byte := Nat

/-- Modelled from the spec: `utils.toLittleEndian` applied to an `int`
(absent `utils.py`): 4-byte little-endian encoding ("4-byte little-endian
version", "the index little-endian (4 bytes)", "4-byte little-endian
locktime"). -/
def le4 (n : Nat) : List Byte :=
  [n % 256, n / 256 % 256, n / 65536 % 256, n / 16777216 % 256]

/-- Little-endian 8-byte encoding of a natural number below 2^64
(the payload of `struct.pack` with format `<Q`). -/
def le8Nat (n : Nat) : List Byte :=
  [n % 256, n / 256 % 256, n / 65536 % 256, n / 16777216 % 256,
   n / 4294967296 % 256, n / 1099511627776 % 256,
   n / 281474976710656 % 256, n / 72057594037927936 % 256]

/-- Source: `struct.pack` with format `<Q` on a Python `int`: 8-byte little-endian,
raising `struct.error` (modelled as `none`) when the argument is negative
or does not fit in 64 bits. -/
def pack8LE (v : Int) : Option (List Byte) :=
  if 0 ≤ v ∧ v < 18446744073709551616 then some (le8Nat v.toNat) else none

/-- Modelled from the spec: `utils.getLen` (absent `utils.py`), the
variable-length integer length prefix of a byte string: "length encoded as
a variable-length integer; for scripts under 253 bytes this is a single
byte equal to the length", with "the multi-byte escape forms" (0xfd + 2-byte
LE, 0xfe + 4-byte LE, 0xff + 8-byte LE) for larger lengths. -/
def varintLen (s : List Byte) : List Byte :=
  let n := s.length
  if n < 253 then [n]
  else if n < 65536 then [253, n % 256, n / 256 % 256]
  else if n < 4294967296 then 254 :: le4 n
  else 255 :: le8Nat n

/-- Source: `Transaction.makeScriptPubKey`, the P2PKH locking script
`OP_DUP OP_HASH160 <len> <hash> OP_EQUALVERIFY OP_CHECKSIG`
(hex opcodes 76, a9, 88, ac in the source).  The source performs no
validation of the hash length. -/
def makeScriptPubKey (addr : List Byte) : List Byte :=
  0x76 :: 0xa9 :: (varintLen addr ++ addr ++ [0x88, 0xac])

/-- Source: `Transaction.makeOutput`, 8-byte little-endian value, then the
length-prefixed locking script built from the address hash.
`struct.pack` fails (`none`) when the value is out of `<Q` range. -/
def makeOutput (data : Int × List Byte) : Option (List Byte) :=
  let scriptPubKey := makeScriptPubKey data.2
  (pack8LE data.1).map (fun v => v ++ varintLen scriptPubKey ++ scriptPubKey)

/-- Source: `Transaction.createOutputs`, the stored output list
`[[value, dest.pub_key_hash], [balance - value - fee, org.pub_key_hash]]`
— payment output first, change output second.  No validation of the
change amount occurs. -/
def createOutputs (balance value fee : Int) (destHash orgHash : List Byte) :
    List (Int × List Byte) :=
  [(value, destHash), (balance - value - fee, orgHash)]

/-- Source: the join of `makeOutput` over `self.outputs` in `makeRawTx`: serialize each output
in order; a `struct.error` in any output aborts the whole call. -/
def serializeOutputs : List (Int × List Byte) → Option (List Byte)
  | [] => some []
  | o :: rest => do
      let b ← makeOutput o
      let bs ← serializeOutputs rest
      pure (b ++ bs)

/-- The part of `Transaction.makeRawTx` that precedes the unlocking
script: version (little-endian 1), input count 01, the txid byte-reversed
(Modelled from the spec: `utils.toLittleEndian` on a hex string reverses
its byte pairs — "the id byte-reversed relative to its conventional
display form"), and the 4-byte little-endian output index. -/
def rawTxHead (txid : List Byte) (vout : Nat) : List Byte :=
  le4 1 ++ [0x01] ++ txid.reverse ++ le4 vout

/-- The part of `Transaction.makeRawTx` that follows the unlocking script:
sequence ffffffff, output count 02, the serialized outputs, and the
4-byte locktime 0. -/
def rawTxTail (outsBytes : List Byte) : List Byte :=
  [0xff, 0xff, 0xff, 0xff] ++ [0x02] ++ outsBytes ++ le4 0

/-- Source: `Transaction.makeRawTx`, the full serialization
`version ++ (input_count ++ txid ++ vout ++ len(scriptSig) ++ scriptSig ++ ffffffff)
 ++ (output_count ++ outputs) ++ lockTime`. -/
def makeRawTx (txid : List Byte) (vout : Nat) (scriptSig : List Byte)
    (outputs : List (Int × List Byte)) : Option (List Byte) :=
  (serializeOutputs outputs).map (fun outsBytes =>
    rawTxHead txid vout ++ varintLen scriptSig ++ scriptSig ++ rawTxTail outsBytes)

/-- ASCII code of a hex digit as produced by Python hex formatting
(lower-case letters). -/
def hexDigitAscii (d : Nat) : Byte :=
  if d < 10 then 48 + d else 87 + d

/-- The UTF-8 (= ASCII) encoding of the lower-case hexadecimal text
rendering of a byte sequence: what `rawTx.encode(utf-8)` yields in
`makeSignedTx`, since `rawTx` is a hex string.  Two ASCII code points
per byte. -/
def asciiHex (bs : List Byte) : List Byte :=
  bs.flatMap (fun b => [hexDigitAscii (b / 16 % 16), hexDigitAscii (b % 16)])

/-- Source: `Transaction.makeSignedTx`, lines 141-142: the signature-hash
preimage is `makeRawTx(txid, vout, scriptPubKey(org.pub_key_hash))`
followed by `hexify(struct.pack(<L, 1))`, the 4-byte little-endian
rendering of the sighash type 01. -/
def makeSigHashPreimage (txid : List Byte) (vout : Nat)
    (spenderHash : List Byte) (outputs : List (Int × List Byte)) :
    Option (List Byte) :=
  (makeRawTx txid vout (makeScriptPubKey spenderHash) outputs).map
    (fun raw => raw ++ le4 1)

/- ### The canonical signer loop (`Transaction.signTx`) -/

/-- The order of the secp256k1 group, `ecdsa.SECP256k1.order` in the
source. -/
def curveOrder : Nat :=
  0xFFFFFFFFFFFFFFFFFFFFFFFFFFFFFFFEBAAEDCE6AF48A03BBFD25E8CD0364141

/-- The value of the Python expression `N / 2` at line 122 of the source.
This is Python 3 float (true) division: the rational `curveOrder / 2`
is correctly rounded to the nearest IEEE-754 double.
`curveOrder / 2 = 2^255 - d/2` with `d = 2^256 - curveOrder < 2^129`;
the doubles bracketing it are `2^255 - 2^202` and `2^255`, and since
`d/2 < 2^201` (half the gap `2^202`), the nearest double is exactly
`2^255`.  Python compares an `int` with a `float` exactly, so the test
`s < Nby2` at line 130 is the integer test `s < 2^255`. -/
def nBy2Float : Nat := 2 ^ 255

/-- Justification for `nBy2Float`: the distance from `curveOrder / 2` to
`2^255` is below half the double spacing `2^202` at that magnitude, so
rounding-to-nearest yields `2^255`. -/
theorem nBy2Float_rounding : 2 ^ 256 - curveOrder < 2 ^ 201 ∧ curveOrder < 2 ^ 256 := by
  constructor <;> decide

/-- Outcome of one run of the signer: either a DER signature (abstracted
by its `(r, s)` pair) with the sighash byte appended, or the fatal
`assert vk.verify_digest(...)` failure at line 133. -/
inductive SignOutcome where
  | ok (r s : Nat)
  | assertFailed (r s : Nat)
  deriving DecidableEq, Repr

/-- The `while 1` loop of `Transaction.signTx`, lines 125-134.  The
library call `sk.sign_digest` uses a fresh random nonce on every
iteration; the sequence of candidate `(r, s)` pairs it would produce is
abstracted as the stream `cands`, and the library verification
`vk.verify_digest` against the fixed digest as the predicate `verifies`.
Iteration `idx` decodes candidate `cands idx`; if `s < nBy2Float` the
code verifies and returns (or dies on the assert), otherwise it loops.
`fuel` bounds how many iterations we unfold: `none` means the loop has
not terminated within `fuel` iterations — the source itself has no
bound. -/
def signTxLoop (cands : Nat → Nat × Nat) (verifies : Nat × Nat → Bool) :
    Nat → Nat → Option SignOutcome
  | 0, _ => none
  | fuel + 1, idx =>
      let rs := cands idx
      if rs.2 < nBy2Float then
        if verifies rs then some (.ok rs.1 rs.2)
        else some (.assertFailed rs.1 rs.2)
      else
        signTxLoop cands verifies fuel (idx + 1)

/-- Source: `Transaction.signTx`, run with `fuel` iterations available:
the loop starting at the first candidate. -/
def signTx (cands : Nat → Nat × Nat) (verifies : Nat × Nat → Bool)
    (fuel : Nat) : Option SignOutcome :=
  signTxLoop cands verifies fuel 0

/- ### SHA-256

Modelled from the spec: `utils.sha256` (`utils.py` is not under `src/`)
is the standard SHA-256 hash ("double-SHA256" in the spec), FIPS 180-4,
over byte sequences.  Words are `Nat` reduced modulo `2^32`. -/

/-- Reduce to a 32-bit word. -/
def m32 (x : Nat) : Nat := x % 4294967296

/-- Right rotation of a 32-bit word. -/
def rotr (n w : Nat) : Nat := m32 (w / 2 ^ n + w % 2 ^ n * 2 ^ (32 - n))

/-- SHA-256 choice function. -/
def shaCh (e f g : Nat) : Nat := (e &&& f) ^^^ ((4294967295 - m32 e) &&& g)

/-- SHA-256 majority function. -/
def shaMaj (a b c : Nat) : Nat := (a &&& b) ^^^ (a &&& c) ^^^ (b &&& c)

/-- SHA-256 big sigma 0. -/
def bigS0 (a : Nat) : Nat := rotr 2 a ^^^ rotr 13 a ^^^ rotr 22 a

/-- SHA-256 big sigma 1. -/
def bigS1 (e : Nat) : Nat := rotr 6 e ^^^ rotr 11 e ^^^ rotr 25 e

/-- SHA-256 small sigma 0. -/
def smallS0 (w : Nat) : Nat := rotr 7 w ^^^ rotr 18 w ^^^ w / 8

/-- SHA-256 small sigma 1. -/
def smallS1 (w : Nat) : Nat := rotr 17 w ^^^ rotr 19 w ^^^ w / 1024

/-- The 64 SHA-256 round constants (FIPS 180-4, written in decimal). -/
def shaK : List Nat :=
  [1116352408, 1899447441, 3049323471, 3921009573, 961987163,
   1508970993, 2453635748, 2870763221, 3624381080, 310598401,
   607225278, 1426881987, 1925078388, 2162078206, 2614888103,
   3248222580, 3835390401, 4022224774, 264347078, 604807628,
   770255983, 1249150122, 1555081692, 1996064986, 2554220882,
   2821834349, 2952996808, 3210313671, 3336571891, 3584528711,
   113926993, 338241895, 666307205, 773529912, 1294757372,
   1396182291, 1695183700, 1986661051, 2177026350, 2456956037,
   2730485921, 2820302411, 3259730800, 3345764771, 3516065817,
   3600352804, 4094571909, 275423344, 430227734, 506948616,
   659060556, 883997877, 958139571, 1322822218, 1537002063,
   1747873779, 1955562222, 2024104815, 2227730452, 2361852424,
   2428436474, 2756734187, 3204031479, 3329325298]

/-- The SHA-256 working state (eight 32-bit words). -/
structure Sha8 where
  a : Nat
  b : Nat
  c : Nat
  d : Nat
  e : Nat
  f : Nat
  g : Nat
  h : Nat
  deriving DecidableEq, Repr

/-- The SHA-256 initial hash value (FIPS 180-4, written in decimal). -/
def shaInit : Sha8 :=
  ⟨1779033703, 3144134277, 1013904242, 2773480762,
   1359893119, 2600822924, 528734635, 1541459225⟩

/-- One SHA-256 compression round with round constant `k` and schedule
word `w`. -/
def compressStep (k w : Nat) (s : Sha8) : Sha8 :=
  let t1 := m32 (s.h + bigS1 s.e + shaCh s.e s.f s.g + k + w)
  let t2 := m32 (bigS0 s.a + shaMaj s.a s.b s.c)
  ⟨m32 (t1 + t2), s.a, s.b, s.c, m32 (s.d + t1), s.e, s.f, s.g⟩

/-- Run the compression rounds over parallel lists of round constants
and schedule words. -/
def compressRounds : List Nat → List Nat → Sha8 → Sha8
  | [], _, s => s
  | _ :: _, [], s => s
  | k :: ks, w :: ws, s => compressRounds ks ws (compressStep k w s)

/-- Extend a 16-word block to the 64-word message schedule by `n` more
recurrence steps. -/
def extendWords : Nat → List Nat → List Nat
  | 0, ws => ws
  | n + 1, ws =>
      let t := ws.length
      let w := m32 (smallS1 (ws.getD (t - 2) 0) + ws.getD (t - 7) 0 +
                    smallS0 (ws.getD (t - 15) 0) + ws.getD (t - 16) 0)
      extendWords n (ws ++ [w])

/-- Big-endian 8-byte encoding (the SHA-256 length field). -/
def be8 (n : Nat) : List Byte :=
  [n / 72057594037927936 % 256, n / 281474976710656 % 256,
   n / 1099511627776 % 256, n / 4294967296 % 256,
   n / 16777216 % 256, n / 65536 % 256, n / 256 % 256, n % 256]

/-- Big-endian 4-byte encoding of a 32-bit word. -/
def be4 (n : Nat) : List Byte :=
  [n / 16777216 % 256, n / 65536 % 256, n / 256 % 256, n % 256]

/-- SHA-256 padding: append 0x80, zero bytes to 56 mod 64, then the
bit length as 8 bytes big-endian. -/
def shaPad (msg : List Byte) : List Byte :=
  msg ++ 0x80 :: List.replicate ((64 - (msg.length + 9) % 64) % 64) 0 ++
    be8 (8 * msg.length)

/-- Group bytes into big-endian 32-bit words. -/
def toWords : List Byte → List Nat
  | b0 :: b1 :: b2 :: b3 :: rest =>
      (b0 * 16777216 + b1 * 65536 + b2 * 256 + b3) :: toWords rest
  | _ => []

/-- Process `n` 64-byte blocks, folding the compression function. -/
def processBlocks : Nat → List Byte → Sha8 → Sha8
  | 0, _, s => s
  | n + 1, bytes, s =>
      let ws := extendWords 48 (toWords (bytes.take 64))
      let t := compressRounds shaK ws s
      processBlocks n (bytes.drop 64)
        ⟨m32 (s.a + t.a), m32 (s.b + t.b), m32 (s.c + t.c), m32 (s.d + t.d),
         m32 (s.e + t.e), m32 (s.f + t.f), m32 (s.g + t.g), m32 (s.h + t.h)⟩

/-- SHA-256 of a byte sequence. -/
def sha256 (msg : List Byte) : List Byte :=
  let padded := shaPad msg
  let s := processBlocks (padded.length / 64) padded shaInit
  be4 s.a ++ be4 s.b ++ be4 s.c ++ be4 s.d ++
    be4 s.e ++ be4 s.f ++ be4 s.g ++ be4 s.h

/-- Double SHA-256, `sha256(sha256(payload))` in the source. -/
def dsha (msg : List Byte) : List Byte := sha256 (sha256 msg)

/- ### Message envelope (`Transaction.makeMessage`) -/

/-- Source: `self.MAGIC_BYTES = int(0b110907, 16)`. -/
def MAGIC_BYTES : Nat := 0x0b110907

/-- The byte sequence denoted by the hex string
`payloadHash = hexify(sha256(sha256(payload))[:4])` at line 74: the
first 4 bytes of the double SHA-256 of the payload. -/
def payloadChecksum (payload : List Byte) : List Byte :=
  (dsha payload).take 4

/-- Source: `struct.pack` field `12s`: truncate to 12 bytes or pad with null
bytes. -/
def pad12 (cmd : List Byte) : List Byte :=
  cmd.take 12 ++ List.replicate (12 - cmd.length) 0

/-- Source: `Transaction.makeMessage`,
`struct.pack(L12sL4s, MAGIC_BYTES, command, len(payload), toLittleEndian(payloadHash).encode(utf-8)) + payload`.
Native (`@`) struct mode on 64-bit Linux: `L` is an 8-byte little-endian
unsigned long, and the second `L` is aligned to 8 bytes, inserting 4 null
bytes after the 12-byte command field; the `4s` field truncates its
argument to 4 bytes.  `toLittleEndian` on the 8-character hex string
`payloadHash` reverses its byte pairs, i.e. renders the reversed byte
list; UTF-8 encoding that hex text gives `asciiHex` of the reversed
bytes, and the `4s` truncation keeps its first 4 ASCII characters. -/
def makeMessage (command payload : List Byte) : List Byte :=
  le8Nat MAGIC_BYTES ++ pad12 command ++ [0, 0, 0, 0] ++
    le8Nat payload.length ++
    (asciiHex (payloadChecksum payload).reverse).take 4 ++ payload

/-- Source: `Transaction.makeSignedTx`, lines 145-146: the digest handed to the
signer is the double SHA-256 of `rawTx.encode(utf-8)` — the UTF-8
encoding of the hex TEXT of the preimage, not the bytes that text
denotes. -/
def makeSignedTxDigest (txid : List Byte) (vout : Nat)
    (spenderHash : List Byte) (outputs : List (Int × List Byte)) :
    Option (List Byte) :=
  (makeSigHashPreimage txid vout spenderHash outputs).map
    (fun p => dsha (asciiHex p))

/- ### Concrete sample inputs used by witnesses -/

/-- Sample 32-byte transaction id in display order. -/
def sampleTxid : List Byte :=
  [0x00, 0x11, 0x22, 0x33, 0x44, 0x55, 0x66, 0x77,
   0x88, 0x99, 0xaa, 0xbb, 0xcc, 0xdd, 0xee, 0xff,
   0x00, 0x11, 0x22, 0x33, 0x44, 0x55, 0x66, 0x77,
   0x88, 0x99, 0xaa, 0xbb, 0xcc, 0xdd, 0xee, 0xff]

/-- Sample 20-byte recipient public-key hash. -/
def sampleDest : List Byte := List.replicate 20 0x11

/-- Sample 20-byte spender public-key hash. -/
def sampleOrg : List Byte := List.replicate 20 0x22

/-- Sample outputs for the end-to-end scenario of the spec:
balance 10000, payment 1000, fee 1000. -/
def sampleOuts : List (Int × List Byte) :=
  createOutputs 10000 1000 1000 sampleDest sampleOrg

/-- The serialization of `sampleOuts` (two outputs of 34 bytes each). -/
def sampleOutsBytes : List Byte :=
  [232, 3, 0, 0, 0, 0, 0, 0, 25, 118, 169, 20,
   17, 17, 17, 17, 17, 17, 17, 17, 17, 17, 17, 17, 17, 17, 17, 17, 17, 17, 17, 17,
   136, 172,
   64, 31, 0, 0, 0, 0, 0, 0, 25, 118, 169, 20,
   34, 34, 34, 34, 34, 34, 34, 34, 34, 34, 34, 34, 34, 34, 34, 34, 34, 34, 34, 34,
   136, 172]

/-- Sample unlocking script bytes. -/
def sampleScriptSig : List Byte := [3, 1, 255, 5]

/- ### Claims -/

/-- C5.  For every (txid, vout, unlocking script) and the two stored
outputs, the assembled transaction is exactly the concatenation:
4-byte little-endian version 1; input count byte 0x01; the 32-byte id
byte-reversed from display order; 4-byte little-endian index; a
variable-length-integer length prefix followed by the unlocking script;
the 4-byte sequence ffffffff; output count byte 0x02; the payment output
then the change output, each an 8-byte little-endian value followed by a
length-prefixed locking script; and the 4-byte little-endian locktime 0. -/
theorem C5_makeRawTx_layout (txid : List Byte) (vout : Nat)
    (scriptSig : List Byte) (balance payment fee : Int)
    (destHash orgHash : List Byte)
    (htxid : txid.length = 32)
    (hpay : 0 ≤ payment ∧ payment < 18446744073709551616)
    (hchg : 0 ≤ balance - payment - fee ∧
            balance - payment - fee < 18446744073709551616) :
    makeRawTx txid vout scriptSig
        (createOutputs balance payment fee destHash orgHash) =
      some (le4 1 ++ [0x01] ++ txid.reverse ++ le4 vout ++
        varintLen scriptSig ++ scriptSig ++ [0xff, 0xff, 0xff, 0xff] ++
        [0x02] ++
        (le8Nat payment.toNat ++ varintLen (makeScriptPubKey destHash) ++
          makeScriptPubKey destHash) ++
        (le8Nat (balance - payment - fee).toNat ++
          varintLen (makeScriptPubKey orgHash) ++ makeScriptPubKey orgHash) ++
        le4 0) := by
  simp only [makeRawTx, createOutputs, serializeOutputs, makeOutput,
    pack8LE, rawTxHead, rawTxTail, if_pos hpay, if_pos hchg,
    Option.map_some, Option.bind_some, Option.some_bind, bind, Option.bind,
    pure, Option.pure_def, Option.map_eq_map]
  simp [List.append_assoc]

/-- C5 witness: the layout theorem applied at the sample inputs. -/
theorem C5_witness :
    makeRawTx sampleTxid 1 sampleScriptSig sampleOuts =
      some (le4 1 ++ [0x01] ++ sampleTxid.reverse ++ le4 1 ++
        varintLen sampleScriptSig ++ sampleScriptSig ++
        [0xff, 0xff, 0xff, 0xff] ++ [0x02] ++
        (le8Nat (1000 : Int).toNat ++ varintLen (makeScriptPubKey sampleDest) ++
          makeScriptPubKey sampleDest) ++
        (le8Nat ((10000 : Int) - 1000 - 1000).toNat ++
          varintLen (makeScriptPubKey sampleOrg) ++ makeScriptPubKey sampleOrg) ++
        le4 0) :=
  C5_makeRawTx_layout sampleTxid 1 sampleScriptSig 10000 1000 1000
    sampleDest sampleOrg (by decide) (by decide) (by decide)

/-- C6.  For all (balance, payment, fee) with balance ≥ payment + fee,
building the outputs yields exactly two entries in fixed order — first
the payment output (value = payment, locked to the recipient hash), then
the change output (value = balance − payment − fee, locked to the
spender hash) — so the computed change equals balance − payment − fee
and is non-negative. -/
theorem C6_createOutputs_payment_then_change (balance payment fee : Int)
    (destHash orgHash : List Byte) (h : payment + fee ≤ balance) :
    createOutputs balance payment fee destHash orgHash =
      [(payment, destHash), (balance - payment - fee, orgHash)] ∧
    0 ≤ balance - payment - fee :=
  ⟨rfl, by omega⟩

/-- C6 witness: the end-to-end scenario of the spec, balance 10000,
payment 1000, fee 1000, giving outputs [(1000, recipient), (8000, spender)]. -/
theorem C6_witness :
    createOutputs 10000 1000 1000 sampleDest sampleOrg =
      [(1000, sampleDest), (8000, sampleOrg)] ∧
    (0 : Int) ≤ 8000 := by
  have h := C6_createOutputs_payment_then_change 10000 1000 1000
    sampleDest sampleOrg (by decide)
  exact ⟨by rw [h.1]; norm_num, by norm_num⟩

/-- C7 (code bug).  The claim says that for payment + fee > balance the
system fails with InvalidInput before any encoding occurs.  The source
performs no such validation: `createOutputs` stores the negative change
value unchanged, and the failure only surfaces later, inside the
`struct.pack` call of `makeOutput` (a `struct.error`, not a typed
InvalidInput).  At balance 1000, payment 900, fee 200 the change is
−100: the output list is built, and serialization then dies in the
encoder. -/
theorem C7_negative_change_not_rejected :
    createOutputs 1000 900 200 sampleDest sampleOrg =
      [(900, sampleDest), (-100, sampleOrg)] ∧
    makeOutput (-100, sampleOrg) = none ∧
    serializeOutputs (createOutputs 1000 900 200 sampleDest sampleOrg) =
      none := by
  refine ⟨rfl, by decide, by decide⟩

/-- C8 counterexample.  The claim says the script encoder fails with
InvalidHashLength for every hash that is not exactly 20 bytes.  The
source has no length check: for a 19-byte hash it happily returns the
script DUP HASH160 push(19, hash) EQUALVERIFY CHECKSIG. -/
theorem C8_counterexample :
    makeScriptPubKey (List.replicate 19 7) =
      [0x76, 0xa9, 19] ++ List.replicate 19 7 ++ [0x88, 0xac] := by
  decide

/-- C8 (amended).  For every input hash the script encoder returns
DUP, HASH160, push(length of hash, hash), EQUALVERIFY, CHECKSIG, with no
length validation; in particular, when the hash is exactly 20 bytes the
push opcode is 0x14 = 20 and the output is the claimed byte sequence. -/
theorem C8_amended_no_length_check (addr : List Byte) :
    makeScriptPubKey addr =
      0x76 :: 0xa9 :: (varintLen addr ++ addr ++ [0x88, 0xac]) ∧
    (addr.length = 20 →
      makeScriptPubKey addr = [0x76, 0xa9, 20] ++ addr ++ [0x88, 0xac]) := by
  refine ⟨rfl, fun h => ?_⟩
  simp [makeScriptPubKey, varintLen, h]

/-- C8 witness: the amended theorem applied to a concrete 20-byte hash. -/
theorem C8_witness :
    makeScriptPubKey (List.replicate 20 5) =
      [0x76, 0xa9, 20] ++ List.replicate 20 5 ++ [0x88, 0xac] :=
  (C8_amended_no_length_check (List.replicate 20 5)).2 (by decide)

/-- C4.  The signature-hash preimage is the assembler serialization with
the unlocking-script field set to the locking script of the output being
spent, followed by the 4-byte little-endian sighash tag `le4 1 = 01 00 00 00`;
and every assembler call with the same (txid, vout, outputs) — in
particular the final assembly with the real scriptSig — shares the
byte-identical head (version, input count, reversed txid, index) and
tail (sequence, output count, both outputs, locktime), differing only
in the length-prefixed unlocking script (and the appended tag). -/
theorem C4_preimage_frame (txid : List Byte) (vout : Nat)
    (spenderHash : List Byte) (outputs : List (Int × List Byte))
    (outsBytes : List Byte) (h : serializeOutputs outputs = some outsBytes) :
    makeSigHashPreimage txid vout spenderHash outputs =
      some (rawTxHead txid vout ++
        varintLen (makeScriptPubKey spenderHash) ++ makeScriptPubKey spenderHash ++
        rawTxTail outsBytes ++ le4 1) ∧
    (∀ scriptSig, makeRawTx txid vout scriptSig outputs =
      some (rawTxHead txid vout ++ varintLen scriptSig ++ scriptSig ++
        rawTxTail outsBytes)) ∧
    le4 1 = [0x01, 0x00, 0x00, 0x00] := by
  refine ⟨?_, fun scriptSig => ?_, by decide⟩
  · simp [makeSigHashPreimage, makeRawTx, h]
  · simp [makeRawTx, h]

/-- C4 witness: the frame theorem applied at the sample inputs, with the
universally quantified final-assembly part instantiated at a sample
unlocking script. -/
theorem C4_witness :
    makeSigHashPreimage sampleTxid 1 sampleOrg sampleOuts =
      some (rawTxHead sampleTxid 1 ++
        varintLen (makeScriptPubKey sampleOrg) ++ makeScriptPubKey sampleOrg ++
        rawTxTail sampleOutsBytes ++ le4 1) ∧
    makeRawTx sampleTxid 1 sampleScriptSig sampleOuts =
      some (rawTxHead sampleTxid 1 ++ varintLen sampleScriptSig ++
        sampleScriptSig ++ rawTxTail sampleOutsBytes) :=
  ⟨(C4_preimage_frame sampleTxid 1 sampleOrg sampleOuts sampleOutsBytes
      (by decide)).1,
   (C4_preimage_frame sampleTxid 1 sampleOrg sampleOuts sampleOutsBytes
      (by decide)).2.1 sampleScriptSig⟩

/-- A candidate stream whose every signature has the high value
s = 2^255 − 1: below the float threshold used by the source, yet above
curveOrder / 2. -/
def highSCands : Nat → Nat × Nat := fun _ => (1, 2 ^ 255 - 1)

/-- A verification oracle that always succeeds. -/
def alwaysVerify : Nat × Nat → Bool := fun _ => true

/-- C1 (code bug).  The claim says every signature returned by signTx
has s ≤ curveOrder / 2.  The source tests `s < N / 2` with Python float
division, and `float(N / 2)` rounds to exactly 2^255 > curveOrder / 2
(see `nBy2Float` and `nBy2Float_rounding`), so a candidate with
s = 2^255 − 1 — a legal ECDSA value, since 2^255 − 1 < curveOrder — is
accepted on the first iteration and returned, although
2 · s > curveOrder, i.e. s > curveOrder / 2. -/
theorem C1_high_s_accepted :
    (2 ^ 255 - 1) < curveOrder ∧
    2 * (2 ^ 255 - 1) > curveOrder ∧
    signTx highSCands alwaysVerify 1 = some (.ok 1 (2 ^ 255 - 1)) := by
  refine ⟨by decide, by decide, by decide⟩

/-- Soundness of the signer loop: any terminating run either returns a
signature that passed the library verification (with s below the
accepted threshold), or dies on the failed assertion with an unverified
signature — it never returns an unverified one. -/
theorem signTxLoop_sound (cands : Nat → Nat × Nat)
    (verifies : Nat × Nat → Bool) :
    ∀ fuel idx o, signTxLoop cands verifies fuel idx = some o →
      (∀ r s, o = .ok r s → verifies (r, s) = true ∧ s < nBy2Float) ∧
      (∀ r s, o = .assertFailed r s → verifies (r, s) = false) := by
  intro fuel
  induction fuel with
  | zero => intro idx o h; simp [signTxLoop] at h
  | succ n ih =>
      intro idx o h
      rw [signTxLoop] at h
      by_cases hs : (cands idx).2 < nBy2Float
      · rw [if_pos hs] at h
        by_cases hv : verifies (cands idx) = true
        · rw [if_pos hv] at h
          refine ⟨fun r s hrs => ?_, fun r s hrs => ?_⟩
          · cases h; cases hrs; exact ⟨hv, hs⟩
          · cases h; cases hrs
        · rw [if_neg hv] at h
          refine ⟨fun r s hrs => ?_, fun r s hrs => ?_⟩
          · cases h; cases hrs
          · cases h; cases hrs
            exact Bool.not_eq_true _ ▸ Bool.of_not_eq_true hv
      · rw [if_neg hs] at h
        exact ih (idx + 1) o h

/-- C2.  Before returning, the signer verifies the produced signature
against the signer public key and the exact digest (the `verifies`
oracle); every signature actually returned has passed that verification,
and when verification fails the run ends in the fatal assertion failure
(`SignatureSelfVerificationFailed`) instead of returning the signature. -/
theorem C2_self_verification (cands : Nat → Nat × Nat)
    (verifies : Nat × Nat → Bool) (fuel : Nat) (o : SignOutcome)
    (h : signTx cands verifies fuel = some o) :
    (∀ r s, o = .ok r s → verifies (r, s) = true) ∧
    (∀ r s, o = .assertFailed r s → verifies (r, s) = false) := by
  have hs := signTxLoop_sound cands verifies fuel 0 o h
  exact ⟨fun r s hrs => (hs.1 r s hrs).1, hs.2⟩

/-- A candidate stream with a small, immediately accepted s value. -/
def lowSCands : Nat → Nat × Nat := fun _ => (5, 7)

/-- C2 witness: a run that terminates with a returned signature, to which
the theorem applies and yields that the verification succeeded. -/
theorem C2_witness :
    signTx lowSCands alwaysVerify 1 = some (.ok 5 7) ∧
    alwaysVerify (5, 7) = true :=
  ⟨by decide,
   (C2_self_verification lowSCands alwaysVerify 1 (.ok 5 7) (by decide)).1
      5 7 rfl⟩

/-- Termination of the signer loop as soon as some candidate within
reach of the fuel has a low s value. -/
theorem signTxLoop_terminates (cands : Nat → Nat × Nat)
    (verifies : Nat × Nat → Bool) :
    ∀ fuel idx, (∃ j, idx ≤ j ∧ j < idx + fuel ∧ (cands j).2 < nBy2Float) →
      (signTxLoop cands verifies fuel idx).isSome := by
  intro fuel
  induction fuel with
  | zero => rintro idx ⟨j, hj1, hj2, _⟩; omega
  | succ n ih =>
      rintro idx ⟨j, hj1, hj2, hjs⟩
      rw [signTxLoop]
      by_cases hs : (cands idx).2 < nBy2Float
      · rw [if_pos hs]
        by_cases hv : verifies (cands idx) = true
      <;> simp [hv]
      · rw [if_neg hs]
        refine ih (idx + 1) ⟨j, ?_, by omega, hjs⟩
        rcases Nat.eq_or_lt_of_le hj1 with rfl | hlt
        · exact absurd hjs hs
        · omega

/-- The signer loop on the all-high-s stream never terminates,
whatever fuel it is given. -/
theorem signTxLoop_highCands_none (verifies : Nat × Nat → Bool) :
    ∀ fuel idx,
      signTxLoop (fun _ => (1, curveOrder - 1)) verifies fuel idx = none := by
  intro fuel
  induction fuel with
  | zero => intro idx; rfl
  | succ n ih =>
      intro idx
      rw [signTxLoop, if_neg (by decide)]
      exact ih (idx + 1)

/-- C3 counterexample.  The claim says the canonicalization loop is
bounded by a small constant retry cap, so signTx terminates on every
input, failing with CanonicalRetryExhausted when the cap is exceeded.
The source loop is `while 1` with no cap and no such error: on a
candidate stream whose every signature has s = curveOrder − 1 (above
the acceptance threshold) the loop never terminates, for any number of
iterations. -/
theorem C3_counterexample :
    ¬ ∃ fuel,
      (signTx (fun _ => (1, curveOrder - 1)) alwaysVerify fuel).isSome := by
  rintro ⟨fuel, hf⟩
  rw [signTx, signTxLoop_highCands_none alwaysVerify fuel 0] at hf
  exact Bool.noConfusion hf

/-- C3 (amended).  The retry loop has no cap: it terminates exactly when
the random candidate stream produces a signature below the acceptance
threshold — if candidate k is low the loop returns within k + 1
iterations — but on a stream that never produces a low s it runs
forever, and no CanonicalRetryExhausted error exists in the source. -/
theorem C3_amended_terminates_on_low_s (cands : Nat → Nat × Nat)
    (verifies : Nat × Nat → Bool) (k : Nat)
    (hk : (cands k).2 < nBy2Float) :
    (signTx cands verifies (k + 1)).isSome :=
  signTxLoop_terminates cands verifies (k + 1) 0
    ⟨k, Nat.zero_le k, by omega, hk⟩

/-- C3 witness: the amended termination theorem applied to a stream
whose first candidate already has a low s. -/
theorem C3_witness :
    (lowSCands 0).2 < nBy2Float ∧
    (signTx lowSCands alwaysVerify 1).isSome :=
  ⟨by decide, C3_amended_terminates_on_low_s lowSCands alwaysVerify 0 (by decide)⟩

/-- C9 counterexample.  The claim says the exact value
first4Bytes(doubleHash(payload)) is the checksum placed in the envelope.
For the empty payload that value is [93, 246, 224, 226] (hex 5df6e0e2),
but the envelope built by makeMessage for the command tx ends with
[101, 50, 101, 48] — the ASCII characters e 2 e 0, the first four
characters of the byte-pair-reversed hex text of the checksum, as
truncated by the 4-byte pack field. -/
theorem C9_counterexample :
    payloadChecksum [] = [93, 246, 224, 226] ∧
    makeMessage [116, 120] [] =
      [7, 9, 17, 11, 0, 0, 0, 0,
       116, 120, 0, 0, 0, 0, 0, 0, 0, 0, 0, 0,
       0, 0, 0, 0,
       0, 0, 0, 0, 0, 0, 0, 0,
       101, 50, 101, 48] ∧
    (makeMessage [116, 120] []).drop 32 ≠ payloadChecksum [] := by
  refine ⟨by rfl, by rfl, by decide⟩

/-- C9 (amended).  The checksum the system computes — the byte value of
the hex string payloadHash — equals the first 4 bytes of the double
SHA-256 of the payload, for every payload; the envelope field, however,
receives not those 4 bytes but the first 4 ASCII characters of the
byte-pair-reversed hex text of them (the pack field truncates the
8-character text to 4 bytes): for doubleHash bytes b0 b1 b2 b3 …, the
field holds the ASCII hex rendering of b3 and b2. -/
theorem C9_amended_checksum_vs_envelope (command payload : List Byte) :
    payloadChecksum payload = (dsha payload).take 4 ∧
    (∀ b0 b1 b2 b3 rest, dsha payload = b0 :: b1 :: b2 :: b3 :: rest →
      makeMessage command payload =
        le8Nat MAGIC_BYTES ++ pad12 command ++ [0, 0, 0, 0] ++
          le8Nat payload.length ++
          [hexDigitAscii (b3 / 16 % 16), hexDigitAscii (b3 % 16),
           hexDigitAscii (b2 / 16 % 16), hexDigitAscii (b2 % 16)] ++
          payload) := by
  refine ⟨rfl, fun b0 b1 b2 b3 rest h => ?_⟩
  simp [makeMessage, payloadChecksum, h, asciiHex]

/-- The tail of the double SHA-256 of the empty payload after its first
four bytes. -/
def dshaEmptyTail : List Byte :=
  [118, 19, 89, 211, 10, 130, 117, 5, 142, 41, 159, 204, 3, 129, 83, 69,
   69, 245, 92, 244, 62, 65, 152, 63, 93, 76, 148, 86]

/-- C9 witness: the amended theorem applied to the command tx and the
empty payload, whose double hash starts 5d f6 e0 e2. -/
theorem C9_witness :
    dsha [] = 93 :: 246 :: 224 :: 226 :: dshaEmptyTail ∧
    makeMessage [116, 120] [] =
      le8Nat MAGIC_BYTES ++ pad12 [116, 120] ++ [0, 0, 0, 0] ++
        le8Nat 0 ++
        [hexDigitAscii (226 / 16 % 16), hexDigitAscii (226 % 16),
         hexDigitAscii (224 / 16 % 16), hexDigitAscii (224 % 16)] ++
        ([] : List Byte) :=
  ⟨by rfl,
   (C9_amended_checksum_vs_envelope [116, 120] []).2
      93 246 224 226 dshaEmptyTail (by rfl)⟩

/-- The hex text rendering of a byte list has twice its length. -/
theorem asciiHex_length (bs : List Byte) :
    (asciiHex bs).length = 2 * bs.length := by
  induction bs with
  | nil => rfl
  | cons b rest ih => simp [asciiHex] at ih ⊢; omega

/-- C10.  The 32-byte digest handed to the signer is the double SHA-256
of the UTF-8 encoding of the hexadecimal text of the sighash preimage —
the ASCII hex characters themselves — and that hashed message is
distinct from the binary byte sequence the hex text denotes (it is twice
as long). -/
theorem C10_digest_over_hex_text (txid : List Byte) (vout : Nat)
    (spenderHash : List Byte) (outputs : List (Int × List Byte))
    (p : List Byte)
    (h : makeSigHashPreimage txid vout spenderHash outputs = some p) :
    makeSignedTxDigest txid vout spenderHash outputs =
      some (dsha (asciiHex p)) ∧
    asciiHex p ≠ p := by
  constructor
  · simp [makeSignedTxDigest, h]
  · obtain ⟨raw, -, rfl⟩ :
        ∃ raw, makeRawTx txid vout (makeScriptPubKey spenderHash) outputs =
          some raw ∧ p = raw ++ le4 1 := by
      rw [makeSigHashPreimage] at h
      obtain ⟨raw, hraw, hp⟩ := Option.map_eq_some'.mp h
      exact ⟨raw, hraw, hp.symm⟩
    intro heq
    have hlen := congrArg List.length heq
    rw [asciiHex_length] at hlen
    simp [le4] at hlen

/-- The sighash preimage at the sample inputs (148 bytes). -/
def samplePreimage : List Byte :=
  [1, 0, 0, 0, 1, 255, 238, 221, 204, 187, 170, 153, 136, 119, 102, 85,
   68, 51, 34, 17, 0, 255, 238, 221, 204, 187, 170, 153, 136, 119, 102, 85,
   68, 51, 34, 17, 0, 1, 0, 0, 0, 25, 118, 169, 20, 34, 34, 34,
   34, 34, 34, 34, 34, 34, 34, 34, 34, 34, 34, 34, 34, 34, 34, 34,
   34, 136, 172, 255, 255, 255, 255, 2, 232, 3, 0, 0, 0, 0, 0, 0,
   25, 118, 169, 20, 17, 17, 17, 17, 17, 17, 17, 17, 17, 17, 17, 17,
   17, 17, 17, 17, 17, 17, 17, 17, 136, 172, 64, 31, 0, 0, 0, 0,
   0, 0, 25, 118, 169, 20, 34, 34, 34, 34, 34, 34, 34, 34, 34, 34,
   34, 34, 34, 34, 34, 34, 34, 34, 34, 34, 136, 172, 0, 0, 0, 0,
   1, 0, 0, 0]

/-- C10 witness: the digest theorem applied at the sample inputs, whose
preimage is the explicit 148-byte list `samplePreimage`. -/
theorem C10_witness :
    makeSignedTxDigest sampleTxid 1 sampleOrg sampleOuts =
      some (dsha (asciiHex samplePreimage)) ∧
    asciiHex samplePreimage ≠ samplePreimage :=
  C10_digest_over_hex_text sampleTxid 1 sampleOrg sampleOuts samplePreimage
    (by rfl)

end BtcTx
